import Mathlib

/-!
Shallow embedding of `src/server/services/transformersEmbeddings.js`: the
`TransformersEmbeddings` class (lazy single-flight initialization, batched
embedding generation, dimension caching, health and service-info reporting).

Asynchronous methods are modelled as explicit state-passing functions over the
instance's mutable fields.  A promise rejection is modelled with
`Except String`, the `String` carrying the JavaScript `error.message`; `await`
of a call is sequential composition.  `console.log` / `console.error` output is
not modelled, except that the number of invocations of `this.model` is recorded
in an instrumentation counter (`modelCalls`), and the number of started
`_initializeModel` pipeline loads in another (`loads`), so that "how many model
loads / embedding computations happened" is an observable of the embedding.
-/

/-- An embedding vector (`Array.from(result.data)`). -/
abbrev Vec := List Float

/-- Outcome of the underlying `pipeline('feature-extraction', ...)` call on the
n-th load attempt (0-indexed); `.error m` carries the rejection's
`error.message`. -/
abbrev Loader := Nat → Except String Unit

/-- The loaded model applied to one text
(`this.model(text, { pooling: 'mean', normalize: true })` followed by
`Array.from(result.data)`); `.error m` carries the rejection's message. -/
abbrev Model := String → Except String Vec

/-- The mutable fields of the `TransformersEmbeddings` instance.
`initPromise` is `this.initializationPromise`: `none` models `null`, and
`some r` models a stored initialization promise whose settled outcome is `r`
(in the sequential model every stored promise has a definite outcome).
`cachedDimension` is `this._cachedDimension` (`none` models `null`).
`loads` and `modelCalls` are instrumentation counters, see the file comment. -/
structure SState where
  isInitialized : Bool := false
  initPromise : Option (Except String Unit) := none
  cachedDimension : Option Nat := none
  loads : Nat := 0
  modelCalls : Nat := 0

/-- The state of the freshly constructed singleton (`new TransformersEmbeddings()`). -/
def initState : SState := {}

/-- Method `_initializeModel()`: runs the pipeline load (attempt number `s.loads`);
on success installs the model and sets `isInitialized`; on failure rethrows
`Failed to initialize embedding model: ${error.message}`.  Note that it never
touches `initializationPromise`. -/
def initializeModel (load : Loader) (s : SState) : Except String Unit × SState :=
  match load s.loads with
  | .ok () => (.ok (), { s with loads := s.loads + 1, isInitialized := true })
  | .error m =>
      (.error ("Failed to initialize embedding model: " ++ m),
       { s with loads := s.loads + 1 })

/-- Method `initialize()`: returns immediately when initialized; otherwise returns the
stored initialization promise if there is one, and only otherwise starts
`_initializeModel()` and stores its promise.  The stored promise is never
cleared, on success or on failure. -/
def initializeSvc (load : Loader) (s : SState) : Except String Unit × SState :=
  if s.isInitialized then (.ok (), s)
  else
    match s.initPromise with
    | some r => (r, s)
    | none =>
        match initializeModel load s with
        | (r, s') => (r, { s' with initPromise := some r })

/-- The body of the arrow function passed to `batch.map` in `embedDocuments`,
minus the state effect: embed one text, wrapping a failure as
`Failed to embed text: ${error.message}` (the inner catch). -/
def embedTextRes (model : Model) (t : String) : Except String Vec :=
  match model t with
  | .ok v => .ok v
  | .error m => .error ("Failed to embed text: " ++ m)

/-- One invocation of `this.model` on one text, bumping the instrumentation
counter. -/
def callModel (model : Model) (t : String) (s : SState) :
    Except String Vec × SState :=
  (embedTextRes model t, { s with modelCalls := s.modelCalls + 1 })

/-- The mapping `batch.map(async (text) => ...)`: all the per-text computations of a batch
are started, in array order, before `Promise.all` is awaited. -/
def embedBatch (model : Model) : List String → SState → List (Except String Vec) × SState
  | [], s => ([], s)
  | t :: ts, s =>
      match callModel model t s with
      | (r, s1) =>
          match embedBatch model ts s1 with
          | (rs, s2) => (r :: rs, s2)

/-- Semantics of `Promise.all`: succeeds with the results in array order, or rejects with a
rejection among the inputs.  (JavaScript rejects with the temporally first
rejection; the embedding is deterministic and takes the first in array order.) -/
def promiseAll : List (Except String Vec) → Except String (List Vec)
  | [] => .ok []
  | .error m :: _ => .error m
  | .ok v :: xs =>
      match promiseAll xs with
      | .ok vs => .ok (v :: vs)
      | .error m => .error m

/-- The `for (let i = 0; i < textArray.length; i += batchSize)` loop of
`embedDocuments`, applied to the precomputed list of batches: batches are
processed sequentially; a rejected `Promise.all` aborts the loop. -/
def embedLoop (model : Model) : List (List String) → SState → Except String (List Vec) × SState
  | [], s => (.ok [], s)
  | b :: bs, s =>
      match embedBatch model b s with
      | (rs, s1) =>
          match promiseAll rs with
          | .error m => (.error m, s1)
          | .ok vs =>
              match embedLoop model bs s1 with
              | (.ok vss, s2) => (.ok (vs ++ vss), s2)
              | (.error m, s2) => (.error m, s2)

/-- The successive slices `textArray.slice(i, i + 8)` taken by the batching
loop (batch size 8).  The first argument is fuel bounding the number of loop
iterations; `chunked` supplies `l.length`, which always suffices since every
iteration consumes at least one element. -/
def chunkedFuel : Nat → List String → List (List String)
  | 0, _ => []
  | _ + 1, [] => []
  | fuel + 1, t :: ts => ((t :: ts).take 8) :: chunkedFuel fuel ((t :: ts).drop 8)

/-- The list of batches `textArray.slice(i, i + 8)` for `i = 0, 8, 16, ...`. -/
def chunked (l : List String) : List (List String) :=
  chunkedFuel l.length l

/-- The `texts` argument of `embedDocuments`: a single text or an array of
texts (`Array.isArray(texts) ? texts : [texts]`). -/
abbrev Texts := String ⊕ List String

/-- The normalization `const textArray = Array.isArray(texts) ? texts : [texts]`. -/
def toTextArray : Texts → List String
  | .inl t => [t]
  | .inr ts => ts

/-- Method `embedDocuments(texts)`: initializes, normalizes the input to an array,
rejects an empty array, embeds batch by batch, and wraps every escaping error
as `Failed to generate embeddings: ${error.message}` (the outer catch). -/
def embedDocuments (load : Loader) (model : Model) (texts : Texts) (s : SState) :
    Except String (List Vec) × SState :=
  match initializeSvc load s with
  | (.error m, s1) => (.error ("Failed to generate embeddings: " ++ m), s1)
  | (.ok _, s1) =>
      let textArray := toTextArray texts
      if textArray.length = 0 then
        (.error ("Failed to generate embeddings: No texts provided for embedding"), s1)
      else
        match embedLoop model (chunked textArray) s1 with
        | (.ok vs, s2) => (.ok vs, s2)
        | (.error m, s2) => (.error ("Failed to generate embeddings: " ++ m), s2)

/-- Method `embedQuery(text)`: delegates to `embedDocuments([text])` and returns
`embeddings[0]`; a JavaScript out-of-range index yields `undefined`, modelled
by `List.head?`.  Errors are wrapped as
`Failed to generate query embedding: ${error.message}`. -/
def embedQuery (load : Loader) (model : Model) (text : String) (s : SState) :
    Except String (Option Vec) × SState :=
  match embedDocuments load model (.inr [text]) s with
  | (.ok vs, s1) => (.ok vs.head?, s1)
  | (.error m, s1) => (.error ("Failed to generate query embedding: " ++ m), s1)

/-- JavaScript truthiness of `this._cachedDimension`: `null` and `0` are falsy. -/
def truthyNat : Option Nat → Bool
  | some d => d != 0
  | none => false

/-- Method `getEmbeddingDimension()`: initializes, returns the cached dimension when
it is truthy, otherwise probes with `embedQuery('test')` and caches the
probe's length.  Errors are wrapped as
`Failed to get embedding dimension: ${error.message}`.  The `.ok none` branch
is the (unreachable) case where `embeddings[0]` was `undefined`, in which case
`testEmbedding.length` throws a `TypeError`. -/
def getEmbeddingDimension (load : Loader) (model : Model) (s : SState) :
    Except String Nat × SState :=
  match initializeSvc load s with
  | (.error m, s1) => (.error ("Failed to get embedding dimension: " ++ m), s1)
  | (.ok _, s1) =>
      if truthyNat s1.cachedDimension then (.ok (s1.cachedDimension.getD 0), s1)
      else
        match embedQuery load model "test" s1 with
        | (.ok (some v), s2) => (.ok v.length, { s2 with cachedDimension := some v.length })
        | (.ok none, s2) =>
            (.error ("Failed to get embedding dimension: Cannot read properties of undefined (reading 'length')"), s2)
        | (.error m, s2) => (.error ("Failed to get embedding dimension: " ++ m), s2)

/-- The record returned by `healthCheck()`.  Keys absent from the object in a
given branch are modelled with `none`. -/
structure Health where
  status : String
  model : Option String := none
  dimension : Option Nat := none
  initialized : Option Bool := none
  error : Option String := none
  timestamp : String

/-- Method `healthCheck()`: initializes and probes the dimension; on success reports
`healthy` (reading `this.isInitialized` at return time); any failure is caught
and reported as `unhealthy` with the error's message.  `new Date().toISOString()`
is modelled by the `now` parameter. -/
def healthCheck (load : Loader) (model : Model) (modelName now : String) (s : SState) :
    Health × SState :=
  match initializeSvc load s with
  | (.error m, s1) =>
      ({ status := "unhealthy", error := some m, timestamp := now }, s1)
  | (.ok _, s1) =>
      match getEmbeddingDimension load model s1 with
      | (.ok d, s2) =>
          ({ status := "healthy", model := some modelName, dimension := some d,
             initialized := some s2.isInitialized, timestamp := now }, s2)
      | (.error m, s2) =>
          ({ status := "unhealthy", error := some m, timestamp := now }, s2)

/-- The record returned by `getServiceInfo()`.  The `error` key only appears in
the catch branch; the keys `dimension`, `backend`, `cost`, `rateLimit` only in
the try branch. -/
structure ServiceInfo where
  name : String
  model : String
  status : String
  dimension : Option Nat := none
  backend : Option String := none
  cost : Option String := none
  rateLimit : Option String := none
  error : Option String := none

/-- Method `getServiceInfo()`: builds the metadata record from `healthCheck()`.
`healthCheck` never throws (it is a total function of the embedding, all its
failures are converted to an `unhealthy` record), so the catch branch
(`{ name, model, status: 'error', error: error.message }`) is unreachable and
has no corresponding case here. -/
def getServiceInfo (load : Loader) (model : Model) (modelName now : String) (s : SState) :
    ServiceInfo × SState :=
  match healthCheck load model modelName now s with
  | (h, s1) =>
      ({ name := "Transformers.js Embeddings", model := modelName, status := h.status,
         dimension := h.dimension, backend := some "local", cost := some "free",
         rateLimit := some "none", error := none }, s1)

/-!
Concurrent callers of `initialize()`.  The body of `initialize()` up to the
point where a promise is returned contains no `await`, so in the JavaScript
event loop it runs atomically; any interleaving of `n` concurrent callers is
therefore a sequence of atomic prologue executions.  `PState` keeps only the
fields the prologue reads or writes, with `promiseId` identifying *which*
model-load attempt the stored promise belongs to (attempts are numbered by
`loads`), so that "all callers await the same attempt" is expressible before
the attempt settles.
-/

/-- Prologue-visible state: `this.isInitialized`, the identity of the stored
`this.initializationPromise` (`none` models `null`), and the number of started
`_initializeModel` attempts. -/
structure PState where
  isInitialized : Bool := false
  promiseId : Option Nat := none
  loads : Nat := 0

/-- What one caller of `initialize()` gets back: an immediately resolved
`undefined` (already initialized), or the promise of attempt number `attempt`. -/
inductive InitCall where
  | immediate
  | awaits (attempt : Nat)

/-- The synchronous prologue of `initialize()` executed by one caller. -/
def initializePrologue (s : PState) : InitCall × PState :=
  if s.isInitialized then (.immediate, s)
  else
    match s.promiseId with
    | some p => (.awaits p, s)
    | none =>
        (.awaits s.loads, { s with promiseId := some s.loads, loads := s.loads + 1 })

/-- The outcome a caller observes once the attempt it awaits settles, given the
outcome of every attempt. -/
def observe (outcome : Nat → Except String Unit) : InitCall → Except String Unit
  | .immediate => .ok ()
  | .awaits i => outcome i

/-- Execution of `n` concurrent callers running their `initialize()` prologues. -/
def runCallers : Nat → PState → List InitCall × PState
  | 0, s => ([], s)
  | n + 1, s =>
      match initializePrologue s with
      | (r, s1) =>
          match runCallers n s1 with
          | (rs, s2) => (r :: rs, s2)

/-- The state of `PState` before any caller has run (fresh singleton). -/
def initPState : PState := {}

/-- The embedding vector of a text under a model that succeeds on it
(used to state order preservation). -/
def okVal (model : Model) (t : String) : Vec :=
  match model t with
  | .ok v => v
  | .error _ => []

/-- Invariant of the reachable states of the singleton: a stored successfully
settled initialization promise implies `isInitialized`, and a stored failed one
carries the `_initializeModel` message wrapping. -/
def ReachInv (s : SState) : Prop :=
  (s.initPromise = some (.ok ()) → s.isInitialized = true) ∧
  (∀ m, s.initPromise = some (.error m) →
    ∃ c, m = "Failed to initialize embedding model: " ++ c)

theorem strCancelLeft (a b c : String) (h : a ++ b = a ++ c) : b = c := by
  have h2 : a.data ++ b.data = a.data ++ c.data := by
    rw [← String.data_append, ← String.data_append, h]
  exact String.ext (List.append_cancel_left h2)

theorem strLit_append3 :
    "Failed to generate embeddings: No texts provided for embedding"
      = "Failed to generate embeddings: " ++ "No texts provided for embedding" := by
  decide

theorem embedMsg_ne_noTexts (m : String) :
    ("Failed to embed text: " ++ m) ≠ "No texts provided for embedding" := by
  intro h
  have h2 : ("Failed to embed text: " ++ m).data.head? = some 'N' := by
    rw [h]; rfl
  rw [String.data_append] at h2
  simp [List.head?_append] at h2

theorem str_append_ne_empty (a m : String) (ha : a.data ≠ []) : (a ++ m) ≠ "" := by
  intro h
  have h2 := congrArg String.data h
  rw [String.data_append] at h2
  simp [List.append_eq_nil] at h2
  exact ha h2.1

theorem promiseAll_append (xs ys : List (Except String Vec)) :
    promiseAll (xs ++ ys) =
      match promiseAll xs with
      | .error m => .error m
      | .ok vs =>
          match promiseAll ys with
          | .error m => .error m
          | .ok ws => .ok (vs ++ ws) := by
  induction xs with
  | nil => simp [promiseAll]; cases promiseAll ys <;> rfl
  | cons x xs ih =>
      cases x with
      | error m => rfl
      | ok v =>
          simp only [List.cons_append, promiseAll, ih]
          rcases hx : promiseAll xs with m | vs <;>
            rcases hy : promiseAll ys with m' | ws <;> simp [ih, hx, hy]

theorem promiseAll_map_ok (model : Model) (l : List String)
    (h : ∀ t ∈ l, ∃ v, model t = .ok v) :
    promiseAll (l.map (embedTextRes model)) = .ok (l.map (okVal model)) := by
  induction l with
  | nil => rfl
  | cons t ts ih =>
      obtain ⟨v, hv⟩ := h t (by simp)
      have ih' := ih (fun t' ht' => h t' (by simp [ht']))
      simp only [List.map_cons, promiseAll, embedTextRes, okVal, hv, ih']

theorem promiseAll_map_err (model : Model) (l : List String)
    (h : ∃ t ∈ l, ∃ m, model t = .error m) :
    ∃ t ∈ l, ∃ m, model t = .error m ∧
      promiseAll (l.map (embedTextRes model)) = .error ("Failed to embed text: " ++ m) := by
  induction l with
  | nil => simp at h
  | cons t ts ih =>
      cases hm : model t with
      | error m =>
          exact ⟨t, by simp, m, hm, by simp [promiseAll, embedTextRes, hm]⟩
      | ok v =>
          have h' : ∃ t' ∈ ts, ∃ m, model t' = .error m := by
            obtain ⟨t', ht', m, hm'⟩ := h
            rcases List.mem_cons.mp ht' with h1 | h1
            · subst h1; rw [hm] at hm'; exact absurd hm' (by simp)
            · exact ⟨t', h1, m, hm'⟩
          obtain ⟨t', ht', m, hm', hp⟩ := ih h'
          refine ⟨t', by simp [ht'], m, hm', ?_⟩
          simp [promiseAll, embedTextRes, hm, hp]

theorem promiseAll_err_shape (model : Model) (l : List String) (e : String)
    (h : promiseAll (l.map (embedTextRes model)) = .error e) :
    ∃ t ∈ l, ∃ m, model t = .error m ∧ e = "Failed to embed text: " ++ m := by
  induction l with
  | nil => simp [promiseAll] at h
  | cons t ts ih =>
      cases hm : model t with
      | error m =>
          simp [promiseAll, embedTextRes, hm] at h
          exact ⟨t, by simp, m, hm, h.symm⟩
      | ok v =>
          simp only [List.map_cons, promiseAll, embedTextRes, hm] at h
          cases hp : promiseAll (ts.map (embedTextRes model)) with
          | ok vs => rw [hp] at h; simp at h
          | error m' =>
              rw [hp] at h
              simp at h
              obtain ⟨t', ht', m'', hm'', he⟩ := ih (hp.trans (by rw [h]))
              exact ⟨t', by simp [ht'], m'', hm'', he⟩

theorem promiseAll_ok_length (xs : List (Except String Vec)) (vs : List Vec)
    (h : promiseAll xs = .ok vs) : vs.length = xs.length := by
  induction xs generalizing vs with
  | nil => simp [promiseAll] at h; simp [← h]
  | cons x xs ih =>
      cases x with
      | error m => simp [promiseAll] at h
      | ok v =>
          simp only [promiseAll] at h
          cases hp : promiseAll xs with
          | error m => rw [hp] at h; simp at h
          | ok ws =>
              rw [hp] at h
              simp at h
              subst h
              simp [ih ws hp]

theorem embedBatch_fst (model : Model) (b : List String) (s : SState) :
    (embedBatch model b s).1 = b.map (embedTextRes model) := by
  induction b generalizing s with
  | nil => rfl
  | cons t ts ih => simp [embedBatch, callModel, ih]

theorem embedBatch_snd (model : Model) (b : List String) (s : SState) :
    (embedBatch model b s).2 =
      { s with modelCalls := s.modelCalls + b.length } := by
  induction b generalizing s with
  | nil => rfl
  | cons t ts ih =>
      simp [embedBatch, callModel, ih]
      omega

theorem embedLoop_fst (model : Model) (bs : List (List String)) (s : SState) :
    (embedLoop model bs s).1 =
      promiseAll (bs.flatten.map (embedTextRes model)) := by
  induction bs generalizing s with
  | nil => rfl
  | cons b bs ih =>
      simp only [embedLoop, List.flatten_cons, List.map_append, promiseAll_append]
      rw [embedBatch_fst]
      rcases hb : promiseAll (b.map (embedTextRes model)) with m | vs
      · simp
      · simp only []
        rcases hl : embedLoop model bs ((embedBatch model b s).2) with ⟨r, s2⟩
        have := ih ((embedBatch model b s).2)
        rw [hl] at this
        simp only [] at this
        rw [← this]
        cases r <;> simp

theorem embedLoop_snd_fields (model : Model) (bs : List (List String)) (s : SState) :
    (embedLoop model bs s).2.isInitialized = s.isInitialized ∧
    (embedLoop model bs s).2.initPromise = s.initPromise ∧
    (embedLoop model bs s).2.cachedDimension = s.cachedDimension ∧
    (embedLoop model bs s).2.loads = s.loads := by
  induction bs generalizing s with
  | nil => exact ⟨rfl, rfl, rfl, rfl⟩
  | cons b bs ih =>
      simp only [embedLoop]
      rw [embedBatch_snd]
      rcases hb : promiseAll (b.map (embedTextRes model)) with m | vs
      · rw [embedBatch_fst, hb]
        exact ⟨rfl, rfl, rfl, rfl⟩
      · rw [embedBatch_fst, hb]
        simp only []
        rcases hl : embedLoop model bs { s with modelCalls := s.modelCalls + b.length }
          with ⟨r, s2⟩
        have := ih { s with modelCalls := s.modelCalls + b.length }
        rw [hl] at this
        cases r <;> exact this

theorem chunkedFuel_flatten (fuel : Nat) (l : List String) (h : l.length ≤ fuel) :
    (chunkedFuel fuel l).flatten = l := by
  induction fuel generalizing l with
  | zero =>
      have : l = [] := by
        cases l with
        | nil => rfl
        | cons t ts => simp at h
      simp [this, chunkedFuel]
  | succ fuel ih =>
      cases l with
      | nil => rfl
      | cons t ts =>
          simp only [chunkedFuel, List.flatten_cons]
          rw [ih ((t :: ts).drop 8) (by simp at h ⊢; omega)]
          exact List.take_append_drop 8 (t :: ts)

theorem chunked_flatten (l : List String) : (chunked l).flatten = l :=
  chunkedFuel_flatten l.length l (le_refl _)

theorem initializeSvc_cachedDimension (load : Loader) (s : SState) :
    (initializeSvc load s).2.cachedDimension = s.cachedDimension := by
  by_cases hi : s.isInitialized = true
  · simp [initializeSvc, hi]
  · cases hp : s.initPromise with
    | some r => simp [initializeSvc, hi, hp]
    | none =>
        simp only [initializeSvc, hi, if_false, hp, initializeModel]
        cases load s.loads <;> rfl

theorem initializeSvc_modelCalls (load : Loader) (s : SState) :
    (initializeSvc load s).2.modelCalls = s.modelCalls := by
  by_cases hi : s.isInitialized = true
  · simp [initializeSvc, hi]
  · cases hp : s.initPromise with
    | some r => simp [initializeSvc, hi, hp]
    | none =>
        simp only [initializeSvc, hi, if_false, hp, initializeModel]
        cases load s.loads <;> rfl

theorem initializeSvc_isInit_mono (load : Loader) (s : SState)
    (h : s.isInitialized = true) : initializeSvc load s = (.ok (), s) := by
  simp [initializeSvc, h]

theorem initializeSvc_ok_isInit (load : Loader) (s : SState) (hInv : ReachInv s)
    (h : (initializeSvc load s).1 = .ok ()) :
    (initializeSvc load s).2.isInitialized = true := by
  by_cases hi : s.isInitialized = true
  · simp [initializeSvc, hi]
  · cases hp : s.initPromise with
    | some r =>
        simp [initializeSvc, hi, hp] at h ⊢
        rw [h] at hp
        exact absurd (hInv.1 hp) hi
    | none =>
        simp only [initializeSvc, hi, if_false, hp, initializeModel] at h ⊢
        cases hl : load s.loads with
        | ok u => rfl
        | error m => rw [hl] at h; simp at h

theorem initializeSvc_err_shape (load : Loader) (s : SState) (m : String)
    (hInv : ReachInv s) (h : (initializeSvc load s).1 = .error m) :
    ∃ c, m = "Failed to initialize embedding model: " ++ c := by
  by_cases hi : s.isInitialized = true
  · simp [initializeSvc, hi] at h
  · cases hp : s.initPromise with
    | some r =>
        simp [initializeSvc, hi, hp] at h
        rw [h] at hp
        exact hInv.2 m hp
    | none =>
        simp only [initializeSvc, hi, if_false, hp, initializeModel] at h
        cases hl : load s.loads with
        | ok u => rw [hl] at h; simp at h
        | error c => rw [hl] at h; simp at h; exact ⟨c, h.symm⟩

theorem ReachInv_initializeSvc (load : Loader) (s : SState) (hInv : ReachInv s) :
    ReachInv (initializeSvc load s).2 := by
  by_cases hi : s.isInitialized = true
  · simp only [initializeSvc, hi, if_true]
    exact hInv
  · cases hp : s.initPromise with
    | some r =>
        simp [initializeSvc, hi, hp]
        exact hInv
    | none =>
        simp only [initializeSvc, hi, if_false, hp, initializeModel]
        cases hl : load s.loads with
        | ok u => exact ⟨fun _ => rfl, fun m hm => by simp at hm⟩
        | error c =>
            refine ⟨fun hc => by simp at hc, fun m hm => ?_⟩
            simp at hm
            exact ⟨c, hm.symm⟩

theorem embedDocuments_char (load : Loader) (model : Model) (texts : Texts) (s : SState)
    (hinit : (initializeSvc load s).1 = .ok ()) :
    (embedDocuments load model texts s).1 =
      if toTextArray texts = [] then
        .error "Failed to generate embeddings: No texts provided for embedding"
      else
        match promiseAll ((toTextArray texts).map (embedTextRes model)) with
        | .ok vs => .ok vs
        | .error m => .error ("Failed to generate embeddings: " ++ m) := by
  rcases h1 : initializeSvc load s with ⟨r, s1⟩
  rw [h1] at hinit
  simp only [] at hinit
  subst hinit
  unfold embedDocuments
  rw [h1]
  simp only [List.length_eq_zero]
  by_cases he : toTextArray texts = []
  · simp [he]
  · rw [if_neg he, if_neg he]
    have hfst := embedLoop_fst model (chunked (toTextArray texts)) s1
    rw [chunked_flatten] at hfst
    rcases hl : embedLoop model (chunked (toTextArray texts)) s1 with ⟨rr, s2⟩
    rw [hl] at hfst
    simp only [] at hfst
    rw [← hfst]
    cases rr <;> simp

theorem embedDocuments_ok_length (load : Loader) (model : Model) (texts : Texts)
    (s : SState) (out : List Vec)
    (h : (embedDocuments load model texts s).1 = .ok out) :
    out.length = (toTextArray texts).length := by
  unfold embedDocuments at h
  rcases h1 : initializeSvc load s with ⟨r, s1⟩
  rw [h1] at h
  cases r with
  | error m => simp at h
  | ok u =>
      simp only [] at h
      split at h
      · simp at h
      · have hfst := embedLoop_fst model (chunked (toTextArray texts)) s1
        rw [chunked_flatten] at hfst
        rcases hl : embedLoop model (chunked (toTextArray texts)) s1 with ⟨rr, s2⟩
        rw [hl] at h hfst
        simp only [] at h hfst
        cases rr with
        | error m => simp at h
        | ok vs =>
            simp only [] at h
            have hv : vs = out := by
              have := h
              simp at this
              exact this
            subst hv
            have := promiseAll_ok_length _ _ hfst.symm
            simpa using this

theorem embedDocuments_isInit_mono (load : Loader) (model : Model) (texts : Texts)
    (s : SState) (h : s.isInitialized = true) :
    (embedDocuments load model texts s).2.isInitialized = true := by
  unfold embedDocuments
  rw [initializeSvc_isInit_mono load s h]
  simp only []
  split
  · exact h
  · rcases hl : embedLoop model (chunked (toTextArray texts)) s with ⟨rr, s2⟩
    have hf := embedLoop_snd_fields model (chunked (toTextArray texts)) s
    rw [hl] at hf
    cases rr with
    | ok vs => simpa [h] using hf.1
    | error m => simpa [h] using hf.1

theorem embedDocuments_state (load : Loader) (model : Model) (texts : Texts)
    (s : SState) :
    (embedDocuments load model texts s).2.cachedDimension = s.cachedDimension := by
  unfold embedDocuments
  rcases hi : initializeSvc load s with ⟨r, s1⟩
  have hc := initializeSvc_cachedDimension load s
  rw [hi] at hc
  cases r with
  | error m => exact hc
  | ok u =>
      simp only []
      split
      · exact hc
      · rcases hl : embedLoop model (chunked (toTextArray texts)) s1 with ⟨rr, s2⟩
        have hf := embedLoop_snd_fields model (chunked (toTextArray texts)) s1
        rw [hl] at hf
        cases rr with
        | ok vs =>
            simp only []
            rw [hf.2.2.1]
            exact hc
        | error m =>
            simp only []
            rw [hf.2.2.1]
            exact hc

theorem embedDocuments_single (load : Loader) (model : Model) (text : String)
    (s : SState) :
    embedDocuments load model (.inr [text]) s =
      match initializeSvc load s with
      | (.error m, s1) => (.error ("Failed to generate embeddings: " ++ m), s1)
      | (.ok _, s1) =>
          match embedTextRes model text with
          | .ok v => (.ok [v], { s1 with modelCalls := s1.modelCalls + 1 })
          | .error m =>
              (.error ("Failed to generate embeddings: " ++ m),
               { s1 with modelCalls := s1.modelCalls + 1 }) := by
  unfold embedDocuments
  rcases hi : initializeSvc load s with ⟨r, s1⟩
  cases r with
  | error m => rfl
  | ok u =>
      simp only [toTextArray]
      rw [if_neg (by simp)]
      have hch : chunked [text] = [[text]] := rfl
      rw [hch]
      cases het : embedTextRes model text with
      | ok v => simp [embedLoop, embedBatch, callModel, promiseAll, het]
      | error m => simp [embedLoop, embedBatch, callModel, promiseAll, het]

theorem embedQuery_ok_spec (load : Loader) (model : Model) (text : String)
    (s : SState) (r : Option Vec)
    (h : (embedQuery load model text s).1 = .ok r) :
    ∃ v, r = some v ∧ model text = .ok v ∧
      (embedQuery load model text s).2.modelCalls = s.modelCalls + 1 ∧
      (embedQuery load model text s).2.cachedDimension = s.cachedDimension := by
  unfold embedQuery at h ⊢
  have hq := embedDocuments_single load model text s
  rcases hi : initializeSvc load s with ⟨ri, si⟩
  rw [hi] at hq
  have hmc : si.modelCalls = s.modelCalls := by
    have h2 := initializeSvc_modelCalls load s
    rw [hi] at h2
    exact h2
  have hcd : si.cachedDimension = s.cachedDimension := by
    have h2 := initializeSvc_cachedDimension load s
    rw [hi] at h2
    exact h2
  cases ri with
  | error m =>
      rw [hq] at h
      simp at h
  | ok u =>
      cases het : embedTextRes model text with
      | error m =>
          rw [het] at hq
          rw [hq] at h
          simp at h
      | ok v =>
          rw [het] at hq
          rw [hq] at h ⊢
          simp only [List.head?] at h
          refine ⟨v, by simpa using h.symm, ?_, by simp [hmc], by simp [hcd]⟩
          unfold embedTextRes at het
          cases hm : model text with
          | ok w => rw [hm] at het; simpa using het
          | error m => rw [hm] at het; simp at het

theorem embedQuery_isInit_mono (load : Loader) (model : Model) (text : String)
    (s : SState) (h : s.isInitialized = true) :
    (embedQuery load model text s).2.isInitialized = true := by
  unfold embedQuery
  rcases hd : embedDocuments load model (.inr [text]) s with ⟨rd, s1⟩
  have hm := embedDocuments_isInit_mono load model (.inr [text]) s h
  rw [hd] at hm
  cases rd with
  | ok vs => exact hm
  | error m => exact hm

theorem getEmbeddingDimension_isInit_mono (load : Loader) (model : Model)
    (s : SState) (h : s.isInitialized = true) :
    (getEmbeddingDimension load model s).2.isInitialized = true := by
  unfold getEmbeddingDimension
  rw [initializeSvc_isInit_mono load s h]
  simp only []
  split
  · exact h
  · rcases hq : embedQuery load model "test" s with ⟨rq, s2⟩
    have hm := embedQuery_isInit_mono load model "test" s h
    rw [hq] at hm
    cases rq with
    | ok o =>
        cases o with
        | some v => exact hm
        | none => exact hm
    | error m => exact hm

theorem getEmbeddingDimension_err_shape (load : Loader) (model : Model)
    (s : SState) (e : String)
    (h : (getEmbeddingDimension load model s).1 = .error e) :
    ∃ c, e = "Failed to get embedding dimension: " ++ c := by
  unfold getEmbeddingDimension at h
  rcases hi : initializeSvc load s with ⟨ri, si⟩
  rw [hi] at h
  cases ri with
  | error m =>
      simp only [] at h
      injection h with h2
      exact ⟨m, h2.symm⟩
  | ok u =>
      simp only [] at h
      split at h
      · simp at h
      · rcases hq : embedQuery load model "test" si with ⟨rq, s2⟩
        rw [hq] at h
        cases rq with
        | ok o =>
            cases o with
            | some v => simp at h
            | none =>
                simp only [] at h
                injection h with h2
                refine ⟨"Cannot read properties of undefined (reading 'length')", ?_⟩
                rw [← h2]
                decide
        | error m =>
            simp only [] at h
            injection h with h2
            exact ⟨m, h2.symm⟩

theorem healthCheck_status_cases (load : Loader) (model : Model)
    (modelName now : String) (s : SState) :
    (healthCheck load model modelName now s).1.status = "healthy" ∨
    (healthCheck load model modelName now s).1.status = "unhealthy" := by
  unfold healthCheck
  rcases hi : initializeSvc load s with ⟨ri, si⟩
  cases ri with
  | error m => right; rfl
  | ok u =>
      rcases hd : getEmbeddingDimension load model si with ⟨rd, s2⟩
      cases rd with
      | ok d => left; simp [hd]
      | error m => right; simp [hd]

theorem runCallers_fix (k : Nat) :
    runCallers k ⟨false, some 0, 1⟩ =
      (List.replicate k (.awaits 0), ⟨false, some 0, 1⟩) := by
  induction k with
  | zero => rfl
  | succ k ih => simp [runCallers, initializePrologue, ih, List.replicate_succ]

/-! Claim theorems. -/

/-- C1 counterexample: take a loader whose attempt 0 fails (message `boom`) and
whose every later attempt would succeed.  After the failed first `initialize()`
the stored promise is not cleared (the state does not revert to uninitialized),
and a second `initialize()` call returns the same failed outcome without
starting any fresh model-load attempt (`loads` stays `1`), so the service never
leaves the `initializing` shape. -/
theorem initialize_no_retry_counterexample :
    (initializeSvc (fun n => if n = 0 then .error "boom" else .ok ())
        initState).2.initPromise ≠ none ∧
    (initializeSvc (fun n => if n = 0 then .error "boom" else .ok ())
        initState).2.isInitialized = false ∧
    (initializeSvc (fun n => if n = 0 then .error "boom" else .ok ())
        ((initializeSvc (fun n => if n = 0 then .error "boom" else .ok ())
          initState).2)).1
      = .error "Failed to initialize embedding model: boom" ∧
    (initializeSvc (fun n => if n = 0 then .error "boom" else .ok ())
        ((initializeSvc (fun n => if n = 0 then .error "boom" else .ok ())
          initState).2)).2.loads = 1 := by
  refine ⟨?_, rfl, rfl, rfl⟩
  intro hc
  simp [initializeSvc, initState, initializeModel] at hc

/-- C1 (amended): when the pipeline load of the first `initialize()` attempt
fails, the wrapped error is surfaced to the caller; but the state does not
revert to uninitialized: the rejected promise stays stored, the service remains
in the `initializing` shape, and every subsequent `initialize()` call returns
the very same error and leaves the state unchanged, never starting a fresh
model-load attempt. -/
theorem initialize_failure_surfaced_and_sticky (load : Loader) (m : String)
    (h : load 0 = .error m) :
    (initializeSvc load initState).1
        = .error ("Failed to initialize embedding model: " ++ m) ∧
    (initializeSvc load initState).2.isInitialized = false ∧
    (initializeSvc load initState).2.initPromise
        = some (.error ("Failed to initialize embedding model: " ++ m)) ∧
    (initializeSvc load initState).2.loads = 1 ∧
    initializeSvc load ((initializeSvc load initState).2)
        = (.error ("Failed to initialize embedding model: " ++ m),
           (initializeSvc load initState).2) := by
  have h1 : initializeSvc load initState
      = (.error ("Failed to initialize embedding model: " ++ m),
         { isInitialized := false,
           initPromise := some (.error ("Failed to initialize embedding model: " ++ m)),
           cachedDimension := none, loads := 1, modelCalls := 0 }) := by
    simp [initializeSvc, initState, initializeModel, h]
  rw [h1]
  exact ⟨rfl, rfl, rfl, rfl, rfl⟩

/-- C1 witness. -/
theorem initialize_failure_surfaced_and_sticky_witness :
    ((fun _ => .error "boom" : Loader) 0 = .error "boom") ∧
    ((initializeSvc (fun _ => .error "boom") initState).1
        = .error ("Failed to initialize embedding model: " ++ "boom") ∧
     (initializeSvc (fun _ => .error "boom") initState).2.isInitialized = false ∧
     (initializeSvc (fun _ => .error "boom") initState).2.initPromise
        = some (.error ("Failed to initialize embedding model: " ++ "boom")) ∧
     (initializeSvc (fun _ => .error "boom") initState).2.loads = 1 ∧
     initializeSvc (fun _ => .error "boom")
          ((initializeSvc (fun _ => .error "boom") initState).2)
        = (.error ("Failed to initialize embedding model: " ++ "boom"),
           (initializeSvc (fun _ => .error "boom") initState).2)) :=
  ⟨rfl, initialize_failure_surfaced_and_sticky (fun _ => .error "boom") "boom" rfl⟩

/-- C2: for any positive number of concurrent callers of `initialize()` on the
fresh singleton, exactly one underlying model load is started; every caller
awaits attempt 0, so all callers observe the same success-or-failure outcome of
that one attempt; and once the service is initialized, a further `initialize()`
call returns immediately, leaving the state (in particular the load count)
unchanged. -/
theorem initialize_single_flight (n : Nat) (hn : 0 < n)
    (outcome : Nat → Except String Unit) :
    (runCallers n initPState).2.loads = 1 ∧
    (∀ r ∈ (runCallers n initPState).1, r = .awaits 0) ∧
    (∀ r1 ∈ (runCallers n initPState).1, ∀ r2 ∈ (runCallers n initPState).1,
        observe outcome r1 = observe outcome r2) ∧
    (∀ s : PState, s.isInitialized = true → initializePrologue s = (.immediate, s)) := by
  cases n with
  | zero => exact absurd hn (by simp)
  | succ k =>
      have h1 : runCallers (k + 1) initPState
          = (.awaits 0 :: List.replicate k (.awaits 0), ⟨false, some 0, 1⟩) := by
        simp [runCallers, initializePrologue, initPState, runCallers_fix k]
      rw [h1]
      refine ⟨rfl, ?_, ?_, ?_⟩
      · intro r hr
        rcases List.mem_cons.mp hr with h2 | h2
        · exact h2
        · exact List.eq_of_mem_replicate h2
      · intro r1 hr1 r2 hr2
        have e1 : r1 = .awaits 0 := by
          rcases List.mem_cons.mp hr1 with h2 | h2
          · exact h2
          · exact List.eq_of_mem_replicate h2
        have e2 : r2 = .awaits 0 := by
          rcases List.mem_cons.mp hr2 with h2 | h2
          · exact h2
          · exact List.eq_of_mem_replicate h2
        rw [e1, e2]
      · intro s hs
        simp [initializePrologue, hs]

/-- C2 witness (three concurrent callers). -/
theorem initialize_single_flight_witness :
    0 < 3 ∧
    ((runCallers 3 initPState).2.loads = 1 ∧
     (∀ r ∈ (runCallers 3 initPState).1, r = .awaits 0) ∧
     (∀ r1 ∈ (runCallers 3 initPState).1, ∀ r2 ∈ (runCallers 3 initPState).1,
        observe (fun _ => .ok ()) r1 = observe (fun _ => .ok ()) r2) ∧
     (∀ s : PState, s.isInitialized = true → initializePrologue s = (.immediate, s))) :=
  ⟨by decide, initialize_single_flight 3 (by decide) (fun _ => .ok ())⟩

/-- C3: for every non-empty effective input sequence whose texts all embed
successfully (given a successful initialization), `embedDocuments` returns one
vector per input text, in input order: the output length equals the input
length and the i-th output is the embedding of the i-th input text.  The batch
size 8 is arbitrary relative to the input length, which is universally
quantified; the embedding is deterministic, reflecting that `Promise.all`
reassembles results by array index regardless of completion order. -/
theorem embedDocuments_order_preserving (load : Loader) (model : Model)
    (texts : Texts) (s : SState)
    (hinit : (initializeSvc load s).1 = .ok ())
    (hne : toTextArray texts ≠ [])
    (hok : ∀ t ∈ toTextArray texts, ∃ v, model t = .ok v) :
    ∃ out, (embedDocuments load model texts s).1 = .ok out ∧
      out.length = (toTextArray texts).length ∧
      ∀ i (hi : i < out.length) (hi' : i < (toTextArray texts).length),
        out.get ⟨i, hi⟩ = okVal model ((toTextArray texts).get ⟨i, hi'⟩) := by
  refine ⟨(toTextArray texts).map (okVal model), ?_, by simp, ?_⟩
  · rw [embedDocuments_char load model texts s hinit, if_neg hne,
        promiseAll_map_ok model _ hok]
  · intro i hi hi'
    simp [List.get_eq_getElem, List.getElem_map]

/-- C3 witness: ten texts, so the loop runs two batches (8 then 2). -/
theorem embedDocuments_order_preserving_witness :
    ((initializeSvc (fun _ => .ok ()) initState).1 = .ok ()) ∧
    (toTextArray (.inr ["a","b","c","d","e","f","g","h","i","j"]) ≠ []) ∧
    (∀ t ∈ toTextArray (.inr ["a","b","c","d","e","f","g","h","i","j"]),
        ∃ v, (fun _ => .ok ([] : Vec) : Model) t = .ok v) ∧
    (∃ out, (embedDocuments (fun _ => .ok ()) (fun _ => .ok ([] : Vec))
          (.inr ["a","b","c","d","e","f","g","h","i","j"]) initState).1 = .ok out ∧
      out.length
        = (toTextArray (.inr ["a","b","c","d","e","f","g","h","i","j"])).length ∧
      ∀ i (hi : i < out.length)
          (hi' : i < (toTextArray
            (.inr ["a","b","c","d","e","f","g","h","i","j"])).length),
        out.get ⟨i, hi⟩ = okVal (fun _ => .ok ([] : Vec))
          ((toTextArray (.inr ["a","b","c","d","e","f","g","h","i","j"])).get
            ⟨i, hi'⟩)) :=
  ⟨rfl, by simp [toTextArray], fun t _ => ⟨[], rfl⟩,
   embedDocuments_order_preserving (fun _ => .ok ()) (fun _ => .ok ([] : Vec))
     (.inr ["a","b","c","d","e","f","g","h","i","j"]) initState rfl
     (by simp [toTextArray]) (fun t _ => ⟨[], rfl⟩)⟩

/-- C4: given a successful initialization, `embedDocuments` fails with the
empty-input error (`InvalidInputError`, realised in the code as the message
`No texts provided for embedding` wrapped by the outer catch) exactly when the
effective input sequence is empty; in particular a single non-list text — the
empty string included — is treated as a one-element sequence and never produces
that error. -/
theorem embedDocuments_empty_input (load : Loader) (model : Model)
    (texts : Texts) (s : SState)
    (hinit : (initializeSvc load s).1 = .ok ()) :
    ((embedDocuments load model texts s).1
        = .error "Failed to generate embeddings: No texts provided for embedding"
      ↔ toTextArray texts = []) ∧
    ∀ t : String,
      (embedDocuments load model (.inl t) s).1
        ≠ .error "Failed to generate embeddings: No texts provided for embedding" := by
  have key : ∀ texts' : Texts,
      (embedDocuments load model texts' s).1
          = .error "Failed to generate embeddings: No texts provided for embedding"
        ↔ toTextArray texts' = [] := by
    intro texts'
    rw [embedDocuments_char load model texts' s hinit]
    by_cases he : toTextArray texts' = []
    · simp [he]
    · rw [if_neg he]
      simp only [he, iff_false]
      intro hc
      rcases hp : promiseAll ((toTextArray texts').map (embedTextRes model)) with m | vs
      · rw [hp] at hc
        simp only [] at hc
        injection hc with hc2
        rw [strLit_append3] at hc2
        have hm := strCancelLeft _ _ _ hc2
        obtain ⟨t, ht, c, hcm, hsh⟩ := promiseAll_err_shape model _ _ hp
        rw [hsh] at hm
        exact embedMsg_ne_noTexts c hm
      · rw [hp] at hc
        simp at hc
  refine ⟨key texts, fun t => ?_⟩
  intro hc
  have := (key (.inl t)).mp hc
  simp [toTextArray] at this

/-- C4 witness: the empty array errors, the single empty string does not. -/
theorem embedDocuments_empty_input_witness :
    ((initializeSvc (fun _ => .ok ()) initState).1 = .ok ()) ∧
    (embedDocuments (fun _ => .ok ()) (fun _ => .ok ([] : Vec)) (.inr [])
        initState).1
      = .error "Failed to generate embeddings: No texts provided for embedding" ∧
    (embedDocuments (fun _ => .ok ()) (fun _ => .ok ([] : Vec)) (.inl "")
        initState).1
      ≠ .error "Failed to generate embeddings: No texts provided for embedding" :=
  ⟨rfl,
   (embedDocuments_empty_input (fun _ => .ok ()) (fun _ => .ok ([] : Vec))
      (.inr []) initState rfl).1.mpr rfl,
   (embedDocuments_empty_input (fun _ => .ok ()) (fun _ => .ok ([] : Vec))
      (.inr []) initState rfl).2 ""⟩

/-- C5 counterexample: two runs that differ only in which text fails (the text
`aaa` in the first run, `bbb` in the second, both with underlying message
`boom`) produce the *identical* propagated error.  The error therefore cannot
carry the identity of the failing text: that identity appears only in a
`console.error` log, not in the thrown error, whose message is built solely
from the underlying cause's message. -/
theorem embedDocuments_error_identity_counterexample :
    (embedDocuments (fun _ => .ok ())
        (fun t => if t = "aaa" then .error "boom" else .ok []) (.inr ["aaa"])
        initState).1
      = .error "Failed to generate embeddings: Failed to embed text: boom" ∧
    (embedDocuments (fun _ => .ok ())
        (fun t => if t = "bbb" then .error "boom" else .ok []) (.inr ["bbb"])
        initState).1
      = .error "Failed to generate embeddings: Failed to embed text: boom" ∧
    ("aaa" : String) ≠ "bbb" :=
  ⟨rfl, rfl, by decide⟩

/-- C5 (amended): if embedding any single text of the input fails, the entire
`embedDocuments` call fails with the generation error wrapping the per-text
failure (`Failed to generate embeddings: Failed to embed text: <cause>`), the
cause being the underlying error's message — the failing text itself is only
logged, not carried in the propagated error; and no partial result is ever
returned: a successful call always returns exactly one vector per input text. -/
theorem embedDocuments_all_or_nothing (load : Loader) (model : Model)
    (texts : Texts) (s : SState)
    (hinit : (initializeSvc load s).1 = .ok ()) :
    ((∃ t ∈ toTextArray texts, ∃ m, model t = .error m) →
      ∃ t ∈ toTextArray texts, ∃ m, model t = .error m ∧
        (embedDocuments load model texts s).1
          = .error ("Failed to generate embeddings: "
              ++ ("Failed to embed text: " ++ m))) ∧
    (∀ out, (embedDocuments load model texts s).1 = .ok out →
      out.length = (toTextArray texts).length) := by
  constructor
  · intro hfail
    obtain ⟨t, ht, m, hm, hp⟩ := promiseAll_map_err model _ hfail
    have hne : toTextArray texts ≠ [] := by
      intro hc
      rw [hc] at ht
      exact absurd ht (by simp)
    refine ⟨t, ht, m, hm, ?_⟩
    rw [embedDocuments_char load model texts s hinit, if_neg hne, hp]
  · intro out h
    exact embedDocuments_ok_length load model texts s out h

/-- C5 (amended) witness. -/
theorem embedDocuments_all_or_nothing_witness :
    ((initializeSvc (fun _ => .ok ()) initState).1 = .ok ()) ∧
    (∃ t ∈ toTextArray (.inr ["aaa"]), ∃ m,
        (fun t => if t = "aaa" then .error "boom" else .ok ([] : Vec) : Model) t
          = .error m) ∧
    (∃ t ∈ toTextArray (.inr ["aaa"]), ∃ m,
        (fun t => if t = "aaa" then .error "boom" else .ok ([] : Vec) : Model) t
            = .error m ∧
        (embedDocuments (fun _ => .ok ())
            (fun t => if t = "aaa" then .error "boom" else .ok ([] : Vec))
            (.inr ["aaa"]) initState).1
          = .error ("Failed to generate embeddings: "
              ++ ("Failed to embed text: " ++ m))) :=
  ⟨rfl, ⟨"aaa", by simp [toTextArray], "boom", rfl⟩,
   (embedDocuments_all_or_nothing (fun _ => .ok ())
      (fun t => if t = "aaa" then .error "boom" else .ok ([] : Vec))
      (.inr ["aaa"]) initState rfl).1
     ⟨"aaa", by simp [toTextArray], "boom", rfl⟩⟩

/-- C6 counterexample: with a model whose probe embedding is empty, the first
`getEmbeddingDimension()` call succeeds with `0` and caches `0`; but because
the cache guard is the JavaScript truthiness test `if (this._cachedDimension)`
and `0` is falsy, the second call generates another probe embedding
(`modelCalls` goes from 1 to 2) instead of returning the cached value without
new work — the probe is not generated at most once per process lifetime. -/
theorem getEmbeddingDimension_reprobe_counterexample :
    (getEmbeddingDimension (fun _ => .ok ()) (fun _ => .ok []) initState).1
      = .ok 0 ∧
    (getEmbeddingDimension (fun _ => .ok ()) (fun _ => .ok [])
        initState).2.cachedDimension = some 0 ∧
    (getEmbeddingDimension (fun _ => .ok ()) (fun _ => .ok [])
        initState).2.modelCalls = 1 ∧
    (getEmbeddingDimension (fun _ => .ok ()) (fun _ => .ok [])
        ((getEmbeddingDimension (fun _ => .ok ()) (fun _ => .ok [])
           initState).2)).2.modelCalls = 2 :=
  ⟨rfl, rfl, rfl, rfl⟩

/-- C6 (amended): provided the cached dimension is nonzero (that is, truthy),
a call with a populated cache returns the cached value with no new model
invocation and leaves the cache unchanged; and a first successful call with an
empty cache performs exactly one probe embedding and caches the returned
dimension.  (With a zero probed dimension the cached `0` is falsy, so each call
repeats the probe — see the counterexample.) -/
theorem getEmbeddingDimension_cached_stable (load : Loader) (model : Model)
    (s : SState) :
    (∀ d, s.cachedDimension = some d → d ≠ 0 →
        (initializeSvc load s).1 = .ok () →
        (getEmbeddingDimension load model s).1 = .ok d ∧
        (getEmbeddingDimension load model s).2.cachedDimension = some d ∧
        (getEmbeddingDimension load model s).2.modelCalls = s.modelCalls) ∧
    (s.cachedDimension = none →
      ∀ d, (getEmbeddingDimension load model s).1 = .ok d →
        (getEmbeddingDimension load model s).2.cachedDimension = some d ∧
        (getEmbeddingDimension load model s).2.modelCalls = s.modelCalls + 1) := by
  rcases hi : initializeSvc load s with ⟨ri, si⟩
  have hcd : si.cachedDimension = s.cachedDimension := by
    have h2 := initializeSvc_cachedDimension load s
    rw [hi] at h2
    exact h2
  have hmc : si.modelCalls = s.modelCalls := by
    have h2 := initializeSvc_modelCalls load s
    rw [hi] at h2
    exact h2
  constructor
  · intro d hd hd0 hinit
    cases ri with
    | error m => simp at hinit
    | ok u =>
        have ht : truthyNat si.cachedDimension = true := by
          rw [hcd, hd]
          simp [truthyNat, hd0]
        have heq : getEmbeddingDimension load model s = (.ok d, si) := by
          unfold getEmbeddingDimension
          rw [hi]
          simp [ht, hcd, hd, truthyNat, hd0]
        rw [heq]
        exact ⟨rfl, by simp [hcd, hd], hmc⟩
  · intro hnone d h
    cases ri with
    | error m =>
        have heq : getEmbeddingDimension load model s
            = (.error ("Failed to get embedding dimension: " ++ m), si) := by
          unfold getEmbeddingDimension
          rw [hi]
        rw [heq] at h
        simp at h
    | ok u =>
        have ht : truthyNat si.cachedDimension = false := by
          rw [hcd, hnone]
          rfl
        have hmain : getEmbeddingDimension load model s
            = match embedQuery load model "test" si with
              | (.ok (some v), s2) =>
                  (.ok v.length, { s2 with cachedDimension := some v.length })
              | (.ok none, s2) =>
                  (.error "Failed to get embedding dimension: Cannot read properties of undefined (reading 'length')",
                   s2)
              | (.error m, s2) =>
                  (.error ("Failed to get embedding dimension: " ++ m), s2) := by
          unfold getEmbeddingDimension
          rw [hi]
          simp only [ht, Bool.false_eq_true, if_false]
        rw [hmain] at h ⊢
        rcases hq : embedQuery load model "test" si with ⟨rq, s2⟩
        rw [hq] at h
        have hspec := embedQuery_ok_spec load model "test" si
        cases rq with
        | error m => simp at h
        | ok o =>
            cases o with
            | none => simp at h
            | some v =>
                obtain ⟨w, hw, hmod, hqc, hqd⟩ := hspec (some v) (by rw [hq])
                rw [hq] at hqc
                have hd2 : v.length = d := by
                  simpa using h
                subst hd2
                refine ⟨rfl, ?_⟩
                simp only []
                rw [hqc, hmc]

/-- C6 (amended) witness: a populated nonzero cache is returned with no new
model invocation. -/
theorem getEmbeddingDimension_cached_stable_witness :
    (({ isInitialized := true, cachedDimension := some 5 } : SState).cachedDimension
        = some 5) ∧
    (5 : Nat) ≠ 0 ∧
    ((initializeSvc (fun _ => .ok ())
        { isInitialized := true, cachedDimension := some 5 }).1 = .ok ()) ∧
    ((getEmbeddingDimension (fun _ => .ok ()) (fun _ => .ok ([] : Vec))
        { isInitialized := true, cachedDimension := some 5 }).1 = .ok 5 ∧
     (getEmbeddingDimension (fun _ => .ok ()) (fun _ => .ok ([] : Vec))
        { isInitialized := true, cachedDimension := some 5 }).2.cachedDimension
        = some 5 ∧
     (getEmbeddingDimension (fun _ => .ok ()) (fun _ => .ok ([] : Vec))
        { isInitialized := true, cachedDimension := some 5 }).2.modelCalls
        = ({ isInitialized := true, cachedDimension := some 5 } : SState).modelCalls) :=
  ⟨rfl, by decide, rfl,
   (getEmbeddingDimension_cached_stable (fun _ => .ok ()) (fun _ => .ok ([] : Vec))
      { isInitialized := true, cachedDimension := some 5 }).1 5 rfl (by decide) rfl⟩

/-- A fact about the fresh singleton: it satisfies the reachable-state
invariant. -/
theorem ReachInv_initState : ReachInv initState := by
  refine ⟨fun h => ?_, fun m h => ?_⟩ <;> simp [initState] at h

/-- C7: `healthCheck` never raises — it always returns a status record whose
status is `healthy` or `unhealthy`.  On success the record carries the model
identifier, a dimension, `initialized: true` and the timestamp; on any failure
(model load or dimension probe) it carries a non-empty error message and the
timestamp.  Stated for every state satisfying the reachable-state invariant
`ReachInv`. -/
theorem healthCheck_never_raises (load : Loader) (model : Model)
    (modelName now : String) (s : SState) (hInv : ReachInv s) :
    ((healthCheck load model modelName now s).1.status = "healthy" ∨
     (healthCheck load model modelName now s).1.status = "unhealthy") ∧
    ((healthCheck load model modelName now s).1.status = "healthy" →
      (healthCheck load model modelName now s).1.model = some modelName ∧
      (∃ d, (healthCheck load model modelName now s).1.dimension = some d) ∧
      (healthCheck load model modelName now s).1.initialized = some true ∧
      (healthCheck load model modelName now s).1.error = none ∧
      (healthCheck load model modelName now s).1.timestamp = now) ∧
    ((healthCheck load model modelName now s).1.status = "unhealthy" →
      ∃ m, (healthCheck load model modelName now s).1.error = some m ∧
        m ≠ "" ∧ (healthCheck load model modelName now s).1.timestamp = now) := by
  refine ⟨healthCheck_status_cases load model modelName now s, ?_, ?_⟩
  · unfold healthCheck
    rcases hi : initializeSvc load s with ⟨ri, si⟩
    cases ri with
    | error m =>
        intro h
        simp at h
    | ok u =>
        have hsi : si.isInitialized = true := by
          have h2 := initializeSvc_ok_isInit load s hInv (by rw [hi])
          rw [hi] at h2
          exact h2
        rcases hd : getEmbeddingDimension load model si with ⟨rd, s2⟩
        have hs2 : s2.isInitialized = true := by
          have h2 := getEmbeddingDimension_isInit_mono load model si hsi
          rw [hd] at h2
          exact h2
        cases rd with
        | ok d =>
            intro h
            exact ⟨by simp [hd], ⟨d, by simp [hd]⟩, by simp [hd, hs2],
                   by simp [hd], by simp [hd]⟩
        | error m =>
            intro h
            simp [hd] at h
  · unfold healthCheck
    rcases hi : initializeSvc load s with ⟨ri, si⟩
    cases ri with
    | error m =>
        intro h
        obtain ⟨c, hc⟩ := initializeSvc_err_shape load s m hInv (by rw [hi])
        refine ⟨m, rfl, ?_, rfl⟩
        rw [hc]
        exact str_append_ne_empty _ _ (by decide)
    | ok u =>
        rcases hd : getEmbeddingDimension load model si with ⟨rd, s2⟩
        cases rd with
        | ok d =>
            intro h
            simp [hd] at h
        | error m =>
            intro h
            obtain ⟨c, hc⟩ :=
              getEmbeddingDimension_err_shape load model si m (by rw [hd])
            refine ⟨m, by simp [hd], ?_, by simp [hd]⟩
            rw [hc]
            exact str_append_ne_empty _ _ (by decide)

/-- C7 witness: everything succeeds on the fresh singleton. -/
theorem healthCheck_never_raises_witness :
    ReachInv initState ∧
    (((healthCheck (fun _ => .ok ()) (fun _ => .ok ([] : Vec)) "m" "ts"
          initState).1.status = "healthy" ∨
      (healthCheck (fun _ => .ok ()) (fun _ => .ok ([] : Vec)) "m" "ts"
          initState).1.status = "unhealthy") ∧
     ((healthCheck (fun _ => .ok ()) (fun _ => .ok ([] : Vec)) "m" "ts"
          initState).1.status = "healthy" →
       (healthCheck (fun _ => .ok ()) (fun _ => .ok ([] : Vec)) "m" "ts"
          initState).1.model = some "m" ∧
       (∃ d, (healthCheck (fun _ => .ok ()) (fun _ => .ok ([] : Vec)) "m" "ts"
          initState).1.dimension = some d) ∧
       (healthCheck (fun _ => .ok ()) (fun _ => .ok ([] : Vec)) "m" "ts"
          initState).1.initialized = some true ∧
       (healthCheck (fun _ => .ok ()) (fun _ => .ok ([] : Vec)) "m" "ts"
          initState).1.error = none ∧
       (healthCheck (fun _ => .ok ()) (fun _ => .ok ([] : Vec)) "m" "ts"
          initState).1.timestamp = "ts") ∧
     ((healthCheck (fun _ => .ok ()) (fun _ => .ok ([] : Vec)) "m" "ts"
          initState).1.status = "unhealthy" →
       ∃ m, (healthCheck (fun _ => .ok ()) (fun _ => .ok ([] : Vec)) "m" "ts"
          initState).1.error = some m ∧ m ≠ "" ∧
         (healthCheck (fun _ => .ok ()) (fun _ => .ok ([] : Vec)) "m" "ts"
          initState).1.timestamp = "ts")) :=
  ⟨ReachInv_initState,
   healthCheck_never_raises (fun _ => .ok ()) (fun _ => .ok ([] : Vec)) "m" "ts"
     initState ReachInv_initState⟩

/-- C8 counterexample: force the model load to fail.  The health check is
unhealthy, yet `getServiceInfo` returns a record with status `unhealthy` — not
`error` — and with no error message at all: `healthCheck` never throws, so the
catch branch of `getServiceInfo` that would produce `{status: 'error', error}`
is unreachable, and the unhealthy record's error message is not copied. -/
theorem getServiceInfo_unhealthy_counterexample :
    (getServiceInfo (fun _ => .error "boom") (fun _ => .ok [])
        "Xenova/all-MiniLM-L6-v2" "ts" initState).1.status = "unhealthy" ∧
    (getServiceInfo (fun _ => .error "boom") (fun _ => .ok [])
        "Xenova/all-MiniLM-L6-v2" "ts" initState).1.status ≠ "error" ∧
    (getServiceInfo (fun _ => .error "boom") (fun _ => .ok [])
        "Xenova/all-MiniLM-L6-v2" "ts" initState).1.error = none :=
  ⟨rfl, by decide, rfl⟩

/-- C8 (amended): `getServiceInfo` never raises; it copies the health status
verbatim (`healthy` or `unhealthy`, never `error`), copies the health record's
dimension, and always reports the static name, model identifier, backend, cost
and rate-limit descriptors; it never contains an error message — the
`status: 'error'` catch branch is unreachable because `healthCheck` never
throws. -/
theorem getServiceInfo_shape (load : Loader) (model : Model)
    (modelName now : String) (s : SState) :
    (getServiceInfo load model modelName now s).1.name
        = "Transformers.js Embeddings" ∧
    (getServiceInfo load model modelName now s).1.model = modelName ∧
    (getServiceInfo load model modelName now s).1.status
        = (healthCheck load model modelName now s).1.status ∧
    (getServiceInfo load model modelName now s).1.dimension
        = (healthCheck load model modelName now s).1.dimension ∧
    (getServiceInfo load model modelName now s).1.backend = some "local" ∧
    (getServiceInfo load model modelName now s).1.cost = some "free" ∧
    (getServiceInfo load model modelName now s).1.rateLimit = some "none" ∧
    (getServiceInfo load model modelName now s).1.error = none ∧
    ((healthCheck load model modelName now s).1.status = "healthy" ∨
     (healthCheck load model modelName now s).1.status = "unhealthy") := by
  refine ⟨?_, ?_, ?_, ?_, ?_, ?_, ?_, ?_,
          healthCheck_status_cases load model modelName now s⟩
  all_goals unfold getServiceInfo
  all_goals rcases hh : healthCheck load model modelName now s with ⟨h, s1⟩
  all_goals simp [hh]

/-- C9: `embedQuery(text)` is `embedDocuments([text])` followed by taking the
sole (first) element, with the same error semantics: when that
`embedDocuments` call succeeds its result has exactly one element and
`embedQuery` returns it (`embeddings[0]`), and when it fails `embedQuery`
fails too (rewrapping the message). -/
theorem embedQuery_delegation (load : Loader) (model : Model) (text : String)
    (s : SState) :
    (∀ l, (embedDocuments load model (.inr [text]) s).1 = .ok l →
        (embedQuery load model text s).1 = .ok l.head? ∧ l.length = 1) ∧
    (∀ m, (embedDocuments load model (.inr [text]) s).1 = .error m →
        (embedQuery load model text s).1
          = .error ("Failed to generate query embedding: " ++ m)) := by
  unfold embedQuery
  rcases hd : embedDocuments load model (.inr [text]) s with ⟨rd, s1⟩
  constructor
  · intro l hl
    cases rd with
    | error m => simp at hl
    | ok vs =>
        have hv : vs = l := by simpa using hl
        subst hv
        refine ⟨rfl, ?_⟩
        have h2 := embedDocuments_ok_length load model (.inr [text]) s vs
          (by rw [hd])
        simpa [toTextArray] using h2
  · intro m hm
    cases rd with
    | ok vs => simp at hm
    | error m2 =>
        have hv : m2 = m := by simpa using hm
        subst hv
        rfl

/-- C9 witness: a failing model, so both calls fail in lockstep. -/
theorem embedQuery_delegation_witness :
    ((embedDocuments (fun _ => .ok ()) (fun _ => .error "boom") (.inr ["q"])
        initState).1
      = .error "Failed to generate embeddings: Failed to embed text: boom") ∧
    ((embedQuery (fun _ => .ok ()) (fun _ => .error "boom") "q" initState).1
      = .error ("Failed to generate query embedding: "
          ++ "Failed to generate embeddings: Failed to embed text: boom")) :=
  ⟨rfl,
   (embedQuery_delegation (fun _ => .ok ()) (fun _ => .error "boom") "q"
      initState).2 "Failed to generate embeddings: Failed to embed text: boom" rfl⟩

/-- C10: every error escaping `embedDocuments` is a fresh `Error` whose
message is `Failed to generate embeddings: ` followed by the inner message,
the inner message being the (wrapped) initialization failure, the empty-input
message, or `Failed to embed text: ` followed by the failing model call's
message; and every error escaping `embedQuery` wraps the `embedDocuments`
error message once more with `Failed to generate query embedding: `.  In the
embedding, as in the code, only the message of the original error survives the
rewrapping — errors are distinguishable only by message text. -/
theorem error_message_wrapping (load : Loader) (model : Model) (texts : Texts)
    (text : String) (s : SState) :
    (∀ e, (embedDocuments load model texts s).1 = .error e →
      ∃ m, e = "Failed to generate embeddings: " ++ m ∧
        ((initializeSvc load s).1 = .error m ∨
         m = "No texts provided for embedding" ∨
         ∃ t ∈ toTextArray texts, ∃ c, model t = .error c ∧
           m = "Failed to embed text: " ++ c)) ∧
    (∀ e, (embedQuery load model text s).1 = .error e →
      ∃ m, (embedDocuments load model (.inr [text]) s).1 = .error m ∧
        e = "Failed to generate query embedding: " ++ m) := by
  constructor
  · intro e he
    unfold embedDocuments at he
    rcases hi : initializeSvc load s with ⟨ri, si⟩
    rw [hi] at he
    cases ri with
    | error m =>
        simp only [] at he
        injection he with h2
        exact ⟨m, h2.symm, Or.inl rfl⟩
    | ok u =>
        simp only [] at he
        split at he
        · injection he with h2
          refine ⟨"No texts provided for embedding", ?_,
                  Or.inr (Or.inl rfl)⟩
          rw [← h2]
          exact strLit_append3
        · rcases hl : embedLoop model (chunked (toTextArray texts)) si
            with ⟨rr, s2⟩
          rw [hl] at he
          cases rr with
          | ok vs => simp at he
          | error m =>
              simp only [] at he
              injection he with h2
              have hfst := embedLoop_fst model (chunked (toTextArray texts)) si
              rw [chunked_flatten, hl] at hfst
              obtain ⟨t, ht, c, hc, hsh⟩ :=
                promiseAll_err_shape model _ m hfst.symm
              exact ⟨m, h2.symm, Or.inr (Or.inr ⟨t, ht, c, hc, hsh⟩)⟩
  · intro e he
    unfold embedQuery at he
    rcases hd : embedDocuments load model (.inr [text]) s with ⟨rd, s1⟩
    rw [hd] at he
    cases rd with
    | ok vs => simp at he
    | error m =>
        simp only [] at he
        injection he with h2
        exact ⟨m, rfl, h2.symm⟩

/-- C10 witness: a per-text failure, wrapped once by `embedDocuments` and once
more by `embedQuery`. -/
theorem error_message_wrapping_witness :
    ((embedDocuments (fun _ => .ok ()) (fun _ => .error "boom") (.inr ["xyz"])
        initState).1
      = .error "Failed to generate embeddings: Failed to embed text: boom") ∧
    (∃ m, ("Failed to generate embeddings: Failed to embed text: boom" : String)
        = "Failed to generate embeddings: " ++ m ∧
      ((initializeSvc (fun _ => .ok ()) initState).1 = .error m ∨
       m = "No texts provided for embedding" ∨
       ∃ t ∈ toTextArray (.inr ["xyz"]), ∃ c,
         (fun _ => .error "boom" : Model) t = .error c ∧
           m = "Failed to embed text: " ++ c)) ∧
    (∃ m, (embedDocuments (fun _ => .ok ()) (fun _ => .error "boom")
        (.inr ["xyz"]) initState).1 = .error m ∧
      ("Failed to generate query embedding: Failed to generate embeddings: Failed to embed text: boom" : String)
        = "Failed to generate query embedding: " ++ m) :=
  ⟨rfl,
   (error_message_wrapping (fun _ => .ok ()) (fun _ => .error "boom")
      (.inr ["xyz"]) "xyz" initState).1
     "Failed to generate embeddings: Failed to embed text: boom" rfl,
   (error_message_wrapping (fun _ => .ok ()) (fun _ => .error "boom")
      (.inr ["xyz"]) "xyz" initState).2
     "Failed to generate query embedding: Failed to generate embeddings: Failed to embed text: boom"
     rfl⟩
